import Mathlib

set_option maxRecDepth 10000

/-!
Verification of the CPU-emulation core (`cpc-emu`): a shallow embedding in
Lean 4 of the parts of the Rust source relevant to the specification's
claims, together with theorems settling those claims.

Conventions of the embedding:
* `u8`/`u16`/`usize` values are modelled as `Nat`; machine arithmetic that
  wraps in the source (release-build semantics of Rust `+`/`-` on unsigned
  integers, and the explicit `wrapping_add`) is modelled with `% 256` or
  `% 0x10000` at the operation.
* Memory (`Memory { locations: [u8; 0xFFFF] }`) is a total function
  `Nat → Nat`; claims are stated at in-bounds addresses (`< 0xFFFF`).
* Rust mutation becomes explicit state passing: each instruction's
  `execute(&mut RuntimeComponents, Operands) -> u16` becomes a function
  `RuntimeComponents → Operands → RuntimeComponents × Nat`, the `Nat`
  being the returned cycle cost.
* `std::process::exit` on an unmapped opcode and the `assert!(false)` on a
  malformed ROM size are modelled by `Option`, `none` denoting the fatal
  outcome.
-/

/-! ## utils.rs -/

/-- `utils::combine_to_double_byte`: `(high_byte as u16) << 8 | low_byte as u16`. -/
def combine_to_double_byte (high_byte low_byte : Nat) : Nat :=
  (high_byte <<< 8) ||| low_byte

/-- `utils::split_double_byte`: `(((value & 0xFF00).wrapping_shr(8)) as u8, (value & 0x00FF) as u8)`. -/
def split_double_byte (value : Nat) : Nat × Nat :=
  ((value &&& 0xFF00) >>> 8, value &&& 0x00FF)

/-- `utils::signed`: reinterpret a `u8` bit pattern as an `i8`. -/
def signed (value : Nat) : Int :=
  if value < 128 then (value : Int) else (value : Int) - 256

/-- Rust `as u16` on an `i8`: the value modulo `2^16`. -/
def int_as_u16 (x : Int) : Nat :=
  (x % 65536).toNat

/-! ### Arithmetic characterisation of the byte-splitting helpers -/

/-! ## memory.rs — data model -/

/-- `Memory { locations: [u8; 0xFFFF] }`: a 65535-cell byte store, modelled as a
total function; valid addresses are `0x0000 .. 0xFFFE`. -/
structure Memory where
  locations : Nat → Nat

/-- An array store `mem.locations[addr] = value`. -/
def Memory.write (m : Memory) (addr value : Nat) : Memory :=
  ⟨fun a => if a = addr then value else m.locations a⟩

/-- `enum FlagValue { Set, Unset }`. -/
inductive FlagValue where
  | set
  | unset
deriving DecidableEq, Fintype

/-!
`FlagsRegister` bit layout (`memory.rs`):
bit 7 = Sign, 6 = Zero, 4 = Half-carry, 2 = Parity/Overflow,
1 = Add/Subtract, 0 = Carry.
The register itself is its `u8` value; each setter mirrors the Rust
`self.value | mask` / `self.value & (255 - mask)`.
-/

def set_carry (f : Nat) : FlagValue → Nat
  | .set => f ||| 1
  | .unset => f &&& (255 - 1)

def set_add_subtract (f : Nat) : FlagValue → Nat
  | .set => f ||| 2
  | .unset => f &&& (255 - 2)

def set_parity_overflow (f : Nat) : FlagValue → Nat
  | .set => f ||| 4
  | .unset => f &&& (255 - 4)

def set_half_carry (f : Nat) : FlagValue → Nat
  | .set => f ||| 16
  | .unset => f &&& (255 - 16)

def set_zero (f : Nat) : FlagValue → Nat
  | .set => f ||| 64
  | .unset => f &&& (255 - 64)

def set_sign (f : Nat) : FlagValue → Nat
  | .set => f ||| 128
  | .unset => f &&& (255 - 128)

/-! ## memory.rs — Accumulator logical operations

Each operation takes the accumulator's value, the operand value and the
flags register's value, returning the new accumulator value and the new
flags value. -/

/-- `Accumulator::and`: `a & value`; clears Carry and Add/Subtract, sets
Half-carry, then sets Parity/Overflow from `self.get() & 128 > 1`. -/
def Accumulator.and (a value f : Nat) : Nat × Nat :=
  let a' := a &&& value
  let f1 := set_carry f .unset
  let f2 := set_add_subtract f1 .unset
  let f3 := set_half_carry f2 .set
  let overflow := if a' &&& 128 > 1 then FlagValue.set else FlagValue.unset
  (a', set_parity_overflow f3 overflow)

/-- `Accumulator::or`: `a | reg`; only Parity/Overflow is updated
(from bit 7 of the operand). -/
def Accumulator.or (a regv f : Nat) : Nat × Nat :=
  let a' := a ||| regv
  (a', set_parity_overflow f (if regv &&& 128 = 128 then .set else .unset))

/-- `Accumulator::xor`: `a ^ reg`; updates Parity/Overflow (bit 7 of the
operand), Zero and Sign — Carry, Add/Subtract and Half-carry are untouched. -/
def Accumulator.xor (a regv f : Nat) : Nat × Nat :=
  let a' := a ^^^ regv
  let f1 := set_parity_overflow f (if regv &&& 128 = 128 then .set else .unset)
  let f2 := set_zero f1 (if a' = 0 then .set else .unset)
  let f3 := set_sign f2 (if a' &&& 128 = 128 then .set else .unset)
  (a', f3)

/-! ## memory.rs — RegisterOperations.inc / dec -/

/-- `RegisterOperations::inc`: wrapping `reg + 1` (u8, release-build
semantics), Parity/Overflow from bit 7 of the result, Half-carry from the
low-nibble carry, Add/Subtract cleared. -/
def RegisterOperations.inc (reg f : Nat) : Nat × Nat :=
  let half_carry := ((reg &&& 0xF) + (1 &&& 0xF)) &&& 0x10 = 0x10
  let reg' := (reg + 1) % 256
  let f1 := set_parity_overflow f (if reg' &&& 128 = 128 then .set else .unset)
  let f2 := set_half_carry f1 (if half_carry then .set else .unset)
  let f3 := set_add_subtract f2 .unset
  (reg', f3)

/-- `RegisterOperations::dec`: wrapping `reg - 1` (u8, release-build
semantics), Parity/Overflow from bit 7 of the result, Add/Subtract set,
Zero and Sign from the result (`(r as i8) < 0` iff bit 7 is set). -/
def RegisterOperations.dec (reg f : Nat) : Nat × Nat :=
  let reg' := (reg + 255) % 256
  let f1 := set_parity_overflow f (if reg' &&& 128 = 128 then .set else .unset)
  let f2 := set_add_subtract f1 .set
  let f3 := set_zero f2 (if reg' = 0 then .set else .unset)
  let f4 := set_sign f3 (if reg' &&& 128 = 128 then .set else .unset)
  (reg', f4)

/-! ## memory.rs — StackPointer -/

/-- `StackPointer::push`: split the value, `location -= 1`, write the high
byte, `location -= 1`, write the low byte. Returns (new location, new memory). -/
def StackPointer.push (location : Nat) (memory : Memory) (value : Nat) : Nat × Memory :=
  let (high, low) := split_double_byte value
  let loc1 := location - 1
  let mem1 := memory.write loc1 high
  let loc2 := loc1 - 1
  let mem2 := mem1.write loc2 low
  (loc2, mem2)

/-- `StackPointer::pop`: read the low byte at `location`, `location += 1`,
read the high byte, `location += 1`, combine. Returns (value, new location). -/
def StackPointer.pop (location : Nat) (memory : Memory) : Nat × Nat :=
  let low := memory.locations location
  let loc1 := location + 1
  let high := memory.locations loc1
  (combine_to_double_byte high low, loc1 + 1)

/-- `RegisterOperations::push_register_pair`: combine the pair's two register
values and push the result. -/
def RegisterOperations.push_register_pair (reg0 reg1 sp : Nat) (mem : Memory) : Nat × Memory :=
  let val := combine_to_double_byte reg0 reg1
  StackPointer.push sp mem val

/-! ## memory.rs — DataBus (stub port abstraction) -/

/-- `DataBus::write`: a stub — no observable effect. -/
def DataBus.write (port value : Nat) : Unit := ()

/-- `DataBus::read`: a stub — always returns the dummy byte `0xEF`. -/
def DataBus.read (port : Nat) : Nat := 0xEF

/-! ## memory.rs / runtime.rs — register file and runtime components -/

/-- `Registers`: the register file (values of the 8-bit registers, the flags
register, shadow bank, index registers, PC, SP and interrupt state). -/
structure Registers where
  a : Nat
  f : Nat
  b : Nat
  c : Nat
  d : Nat
  e : Nat
  h : Nat
  l : Nat
  a_ : Nat
  f_ : Nat
  b_ : Nat
  c_ : Nat
  d_ : Nat
  e_ : Nat
  h_ : Nat
  l_ : Nat
  i : Nat
  x : Nat
  pc : Nat
  sp : Nat
  iff1 : Bool
  iff2 : Bool
  interrupt_mode : Nat

/-- `Registers::default()`: all registers zero, `sp = 0xFFFF`, interrupts
disabled, interrupt mode 0. -/
def Registers.default : Registers :=
  { a := 0, f := 0, b := 0, c := 0, d := 0, e := 0, h := 0, l := 0,
    a_ := 0, f_ := 0, b_ := 0, c_ := 0, d_ := 0, e_ := 0, h_ := 0, l_ := 0,
    i := 0, x := 0, pc := 0, sp := 0xFFFF,
    iff1 := false, iff2 := false, interrupt_mode := 0 }

/-- `RuntimeComponents`: memory, register file and the (stateless) buses.
`AddressBus { value: u16 }` is kept as its bare value; `DataBus` has no state. -/
structure RuntimeComponents where
  mem : Memory
  registers : Registers
  address_bus : Nat

/-- `enum Operands { None, One(u8), Two(u8, u8) }`. -/
inductive Operands where
  | none
  | one (op : Nat)
  | two (op1 op2 : Nat)

/-! ## instruction_set/basic.rs — instructions used by the claims -/

/-- Opcode `0x10`, `DJNZ *1`: decrement B (wrapping u8); if the result is
non-zero, add the sign-extended operand to PC (`wrapping_add`) and cost 13
cycles, otherwise cost 8. -/
def _0x10_execute (components : RuntimeComponents) (operands : Operands) :
    RuntimeComponents × Nat :=
  match operands with
  | .one value =>
    let b := components.registers.b
    let b' := (b + 255) % 256
    let components := { components with registers := { components.registers with b := b' } }
    if b' ≠ 0 then
      let jump_val := signed value
      let val := (components.registers.pc + int_as_u16 jump_val) % 0x10000
      ({ components with registers := { components.registers with pc := val } }, 13)
    else
      (components, 8)
  | _ => (components, 8)

/-- Opcode `0x18`, `JR *1`: `pc.set(pc.get() + (op1 as u16))` — the operand is
zero-extended to 16 bits and added to PC (u16 addition, wrapping in release
builds). Cost 12. -/
def _0x18_execute (components : RuntimeComponents) (operands : Operands) :
    RuntimeComponents × Nat :=
  match operands with
  | .one op1 =>
    ({ components with registers :=
        { components.registers with pc := (components.registers.pc + op1) % 0x10000 } }, 12)
  | _ => (components, 12)

/-- Opcode `0xE5`, `PUSH HL`: the source calls
`push_register_pair((&registers.h, &registers.h), ...)` — both halves of the
pushed pair are register H. Cost 11. -/
def _0xE5_execute (components : RuntimeComponents) (operands : Operands) :
    RuntimeComponents × Nat :=
  let r := RegisterOperations.push_register_pair
    components.registers.h components.registers.h
    components.registers.sp components.mem
  ({ components with
      mem := r.2,
      registers := { components.registers with sp := r.1 } }, 11)

/-! ## instruction_set/extended.rs — instructions used by the claims -/

/-- Opcode `0xED49`, `OUT (C),C`: writes C to data-bus port BC (a stub with
no observable effect). Cost 12. -/
def _0xED49_execute (components : RuntimeComponents) (operands : Operands) :
    RuntimeComponents × Nat :=
  let addr_low_and_val := components.registers.c
  let b_val := components.registers.b
  let port := combine_to_double_byte b_val addr_low_and_val
  let _ := DataBus.write port addr_low_and_val
  (components, 12)

/-- Opcode `0xED78`, `IN A,(C)`: reads a byte from data-bus port BC into A. -/
def _0xED78_execute (components : RuntimeComponents) (operands : Operands) :
    RuntimeComponents × Nat :=
  let addr_low_and_val := components.registers.c
  let b_val := components.registers.b
  let port := combine_to_double_byte b_val addr_low_and_val
  ({ components with registers :=
      { components.registers with a := DataBus.read port } }, 12)

/-- Opcode `0xED79`, `OUT (C),A`: writes A to data-bus port BC (a stub with
no observable effect). Cost 12. -/
def _0xED79_execute (components : RuntimeComponents) (operands : Operands) :
    RuntimeComponents × Nat :=
  let a_val := components.registers.a
  let b_val := components.registers.b
  let c_val := components.registers.c
  let port := combine_to_double_byte b_val c_val
  let _ := DataBus.write port a_val
  (components, 12)

/-- One pass of the `loop` body of `_0xEDB0` (`LDIR`): copy the byte at
address HL to address DE and decrement BC (wrapping u16). The source never
modifies H, L, D or E. -/
def ldir_iteration (components : RuntimeComponents) : RuntimeComponents :=
  let source_addr := combine_to_double_byte components.registers.h components.registers.l
  let target_addr := combine_to_double_byte components.registers.d components.registers.e
  let mem' := components.mem.write target_addr (components.mem.locations source_addr)
  let bc := combine_to_double_byte components.registers.b components.registers.c
  let bc' := (bc + 0xFFFF) % 0x10000
  let bsplit := split_double_byte bc'
  { components with
    mem := mem',
    registers := { components.registers with b := bsplit.1, c := bsplit.2 } }

/-- The `loop { ... if bc == 0 { break; } repeats += 1; }` of `_0xEDB0`,
with explicit fuel. BC reaches zero within `0x10000` iterations from any
start, so fuel `0x10000` makes the recursion total without changing the
semantics. Returns (final state, repeats). -/
def ldir_loop : Nat → RuntimeComponents → Nat → RuntimeComponents × Nat
  | 0, components, repeats => (components, repeats)
  | fuel + 1, components, repeats =>
    let c' := ldir_iteration components
    if combine_to_double_byte c'.registers.b c'.registers.c = 0 then
      (c', repeats)
    else
      ldir_loop fuel c' (repeats + 1)

/-- Opcode `0xEDB0`, `LDIR`: run the block-copy loop, cost `16 + repeats * 21`. -/
def _0xEDB0_execute (components : RuntimeComponents) (operands : Operands) :
    RuntimeComponents × Nat :=
  let r := ldir_loop 0x10000 components 0
  (r.1, 16 + r.2 * 21)

/-! ## runtime.rs — ROM loading -/

/-- The `while` copy loop shared by `load_os_rom` and `load_expansion_rom`:
write `bytes[src_off + k]` to address `dst_off + k` for every `k < count`
(ascending address order, one store per step). -/
def copy_rom_range (bytes : List Nat) (src_off dst_off : Nat) : Nat → Memory → Memory
  | 0, mem => mem
  | count + 1, mem =>
    (copy_rom_range bytes src_off dst_off count mem).write
      (dst_off + count) (bytes.getD (src_off + count) 0)

/-- `Runtime::load_os_rom`: `while i < 0x4000 { mem.locations[i] = bytes[i]; i += 1; }`. -/
def load_os_rom (mem : Memory) (bytes : List Nat) : Memory :=
  copy_rom_range bytes 0 0 0x4000 mem

/-- `Runtime::load_expansion_rom`:
`let mut i = 0xC000; while i < 0xFFFF { mem.locations[i] = bytes[i - 0xC000]; i += 1; }` —
`0x3FFF` stores, at addresses `0xC000 .. 0xFFFE`. `src_off` accounts for the
`&bytes[0x4000..]` slice taken by the caller. -/
def load_expansion_rom (mem : Memory) (bytes : List Nat) (src_off : Nat) : Memory :=
  copy_rom_range bytes src_off 0xC000 0x3FFF mem

/-- `Runtime::load_rom_from_bytes`: a 16 KiB buffer loads the OS ROM area; a
32 KiB buffer loads the OS ROM area from its first half and the expansion
area from its second half; any other length is fatal
(`error!` + `assert!(false)`), modelled as `none`. -/
def load_rom_from_bytes (mem : Memory) (bytes : List Nat) : Option Memory :=
  if bytes.length = 0x4000 then
    some (load_os_rom mem bytes)
  else if bytes.length = 0x8000 then
    some (load_expansion_rom (load_os_rom mem bytes) bytes 0x4000)
  else
    none

/-! ## instruction_set/mod.rs — dispatch tables

Each namespace's `HashMap<u8, Box<dyn Instruction>>` is modelled as the
association list built by the `instruction_set_map!` macro, each instruction
object denoted by its struct name; `HashMap::get` + the
`std::process::exit(1)` fallback is modelled as an `Option`-returning lookup
(`none` = fatal, unrecoverable termination reporting the byte). -/

def basic_instructions : List (Nat × String) := [
  (0x00, "_0x00"), (0x01, "_0x01"), (0xC3, "_0xC3"), (0xC5, "_0xC5"),
  (0xC9, "_0xC9"), (0x4C, "_0x4C"), (0xC0, "_0xC0"), (0xF3, "_0xF3"),
  (0x06, "_0x06"), (0x78, "_0x78"), (0xF5, "_0xF5"), (0xE6, "_0xE6"),
  (0x21, "_0x21"), (0x20, "_0x20"), (0x2B, "_0x2B"), (0x7E, "_0x7E"),
  (0x04, "_0x04"), (0x05, "_0x05"), (0x0D, "_0x0D"), (0xF2, "_0xF2"),
  (0x18, "_0x18"), (0x11, "_0x11"), (0xD9, "_0xD9"), (0x36, "_0x36"),
  (0xAF, "_0xAF"), (0x08, "_0x08"), (0x31, "_0x31"), (0xE5, "_0xE5"),
  (0xD5, "_0xD5"), (0xCD, "_0xCD"), (0x2D, "_0x2D"), (0x77, "_0x77"),
  (0x3E, "_0x3E"), (0x32, "_0x32"), (0x3A, "_0x3A"), (0x23, "_0x23"),
  (0x10, "_0x10"), (0x47, "_0x47"), (0x0E, "_0x0E"), (0xA9, "_0xA9"),
  (0x71, "_0x71"), (0x1A, "_0x1A"), (0x13, "_0x13"), (0xEB, "_0xEB"),
  (0x79, "_0x79"), (0x2F, "_0x2F"), (0x07, "_0x07"), (0xB6, "_0xB6"),
  (0x22, "_0x22"), (0x67, "_0x67"), (0x6F, "_0x6F"), (0x19, "_0x19"),
  (0x7D, "_0x7D"), (0xD6, "_0xD6"), (0x7C, "_0x7C"), (0xDE, "_0xDE"),
  (0xD8, "_0xD8"), (0x0C, "_0x0C"), (0x4E, "_0x4E"), (0x5E, "_0x5E"),
  (0x56, "_0x56"), (0xBB, "_0xBB"), (0xB7, "_0xB7"), (0xC8, "_0xC8"),
  (0x30, "_0x30"), (0xFB, "_0xFB"), (0xD1, "_0xD1"), (0xC1, "_0xC1"),
  (0x70, "_0x70"), (0x73, "_0x73"), (0x72, "_0x72"), (0x09, "_0x09"),
  (0x3C, "_0x3C"), (0x29, "_0x29"), (0xFE, "_0xFE"), (0x41, "_0x41"),
  (0xF8, "_0xF8")]

def extended_instructions : List (Nat × String) := [
  (0x49, "_0xED49"), (0x78, "_0xED78"), (0x79, "_0xED79"), (0x56, "_0xED56"),
  (0x46, "_0xED46"), (0xB0, "_0xEDB0"), (0x5B, "_0xED5B")]

def index_instructions : List (Nat × String) := [
  (0xE5, "_0xDDE5"), (0xE1, "_0xDDE1")]

def bit_instructions : List (Nat × String) := [
  (0x38, "_0xCB38")]

/-- `HashMap::get(&byte)` over the association-list model. -/
def hashmap_get (map : List (Nat × String)) (byte : Nat) : Option String :=
  match map with
  | [] => Option.none
  | (k, v) :: rest => if k = byte then Option.some v else hashmap_get rest byte

/-- `InstructionSet::instruction_for` (basic namespace); `none` models the
fatal `std::process::exit(1)` for an unimplemented opcode. -/
def instruction_for (byte : Nat) : Option String :=
  hashmap_get basic_instructions byte

/-- `InstructionSet::extended_instruction_for`. -/
def extended_instruction_for (byte : Nat) : Option String :=
  hashmap_get extended_instructions byte

/-- `InstructionSet::index_instruction_for`. -/
def index_instruction_for (byte : Nat) : Option String :=
  hashmap_get index_instructions byte

/-- `InstructionSet::bit_instruction_for`. -/
def bit_instruction_for (byte : Nat) : Option String :=
  hashmap_get bit_instructions byte



/-! ## Concrete example states used by individual claims -/

/-- Memory holding bytes 1, 2, 3 at addresses `0x10 .. 0x12`, zero elsewhere. -/
def ldir_example_memory : Memory :=
  ⟨fun a => if a = 0x10 then 1 else if a = 0x11 then 2 else if a = 0x12 then 3 else 0⟩

/-- `LDIR` starting state: BC = 3, HL = 0x0010, DE = 0x0020. -/
def ldir_example_state : RuntimeComponents :=
  { mem := ldir_example_memory,
    registers := { Registers.default with b := 0, c := 3, h := 0, l := 0x10, d := 0, e := 0x20 },
    address_bus := 0 }

/-- A state with PC = 0x0100 (for the relative-jump evaluations). -/
def jr_example_state : RuntimeComponents :=
  { mem := ⟨fun _ => 0⟩,
    registers := { Registers.default with pc := 0x0100 },
    address_bus := 0 }

/-- A state with B = 5 and PC = 0x0100 (for the `DJNZ` evaluation). -/
def djnz_example_state : RuntimeComponents :=
  { mem := ⟨fun _ => 0⟩,
    registers := { Registers.default with b := 5, pc := 0x0100 },
    address_bus := 0 }

/-- An all-zero memory. -/
def zero_memory : Memory := ⟨fun _ => 0⟩

/-- A 16 KiB ROM buffer filled with the byte 7. -/
def rom_example_16k : List Nat := List.replicate 0x4000 7

/-- A 32 KiB ROM buffer filled with the byte 7. -/
def rom_example_32k : List Nat := List.replicate 0x8000 7

/-- PUSH HL example state: H = 0xAB, L = 0x7C, SP = 0xFFFF (default). -/
def c9_example_state : RuntimeComponents :=
  { mem := ⟨fun _ => 0⟩,
    registers := { Registers.default with h := 0xAB, l := 0x7C },
    address_bus := 0 }

/-! ## General lemmas about the embedded operations -/

lemma and_ff00_shiftRight (v : Nat) : (v &&& 0xFF00) >>> 8 = v / 256 % 256 := by
  have h1 : (0xFF00 : Nat) = 0xFF <<< 8 := by
    norm_num [Nat.shiftLeft_eq]
  apply Nat.eq_of_testBit_eq
  intro i
  rw [Nat.testBit_shiftRight, Nat.testBit_and, h1, Nat.testBit_shiftLeft]
  have h2 : v / 256 % 256 = (v >>> 8) % 2 ^ 8 := by
    rw [Nat.shiftRight_eq_div_pow]
    norm_num
  rw [h2, Nat.testBit_mod_two_pow, Nat.testBit_shiftRight]
  have h3 : 8 + i - 8 = i := by omega
  have h4 : (0xFF : Nat) = 2 ^ 8 - 1 := by norm_num
  rw [h3, h4, Nat.testBit_two_pow_sub_one]
  simp [Bool.and_comm]

lemma and_ff_eq_mod (v : Nat) : v &&& 0x00FF = v % 256 := by
  have h4 : (0x00FF : Nat) = 2 ^ 8 - 1 := by norm_num
  rw [h4, Nat.and_pow_two_sub_one_eq_mod]

lemma split_double_byte_char (v : Nat) :
    split_double_byte v = (v / 256 % 256, v % 256) := by
  unfold split_double_byte
  rw [and_ff00_shiftRight, and_ff_eq_mod]

lemma combine_mod (h l : Nat) (hl : l < 256) :
    combine_to_double_byte h l % 256 = l := by
  unfold combine_to_double_byte
  have hm : (h <<< 8 ||| l) % 256 = (h <<< 8 ||| l) % 2 ^ 8 := by norm_num
  apply Nat.eq_of_testBit_eq
  intro i
  rw [hm, Nat.testBit_mod_two_pow, Nat.testBit_or, Nat.testBit_shiftLeft]
  by_cases hi : i < 8
  · have hge : ¬ (i ≥ 8) := by omega
    simp [hi, hge]
  · have hbig : l < 2 ^ i := by
      calc l < 256 := hl
        _ = 2 ^ 8 := by norm_num
        _ ≤ 2 ^ i := Nat.pow_le_pow_right (by norm_num) (by omega)
    simp [hi, Nat.testBit_lt_two_pow hbig]

lemma combine_div (h l : Nat) (hh : h < 256) (hl : l < 256) :
    combine_to_double_byte h l / 256 = h := by
  unfold combine_to_double_byte
  have hdiv : (h <<< 8 ||| l) / 256 = (h <<< 8 ||| l) >>> 8 := by
    rw [Nat.shiftRight_eq_div_pow]
  rw [hdiv]
  apply Nat.eq_of_testBit_eq
  intro i
  rw [Nat.testBit_shiftRight, Nat.testBit_or, Nat.testBit_shiftLeft]
  have h3 : 8 + i - 8 = i := by omega
  have hge : (8 + i ≥ 8) := by omega
  have hbig : l < 2 ^ (8 + i) := by
    calc l < 256 := hl
      _ = 2 ^ 8 := by norm_num
      _ ≤ 2 ^ (8 + i) := Nat.pow_le_pow_right (by norm_num) (by omega)
  simp [h3, hge, Nat.testBit_lt_two_pow hbig]

lemma combine_char (h l : Nat) (hh : h < 256) (hl : l < 256) :
    combine_to_double_byte h l = 256 * h + l := by
  have hm := combine_mod h l hl
  have hd := combine_div h l hh hl
  omega

@[simp] lemma Memory.write_locations (m : Memory) (addr value a : Nat) :
    (m.write addr value).locations a = if a = addr then value else m.locations a := rfl

lemma copy_rom_range_locations (bytes : List Nat) (src_off dst_off : Nat) :
    ∀ (count : Nat) (mem : Memory) (a : Nat),
    (copy_rom_range bytes src_off dst_off count mem).locations a =
      if dst_off ≤ a ∧ a < dst_off + count then bytes.getD (src_off + (a - dst_off)) 0
      else mem.locations a := by
  intro count
  induction count with
  | zero =>
    intro mem a
    have h0 : ¬ (dst_off ≤ a ∧ a < dst_off + 0) := by omega
    simp only [copy_rom_range, if_neg h0]
  | succ k ih =>
    intro mem a
    simp only [copy_rom_range, Memory.write_locations]
    by_cases hlast : a = dst_off + k
    · have h1 : dst_off ≤ a ∧ a < dst_off + (k + 1) := by omega
      have h2 : a - dst_off = k := by omega
      simp [hlast, h1, h2]
    · rw [if_neg hlast, ih mem a]
      by_cases hin : dst_off ≤ a ∧ a < dst_off + k
      · have h1 : dst_off ≤ a ∧ a < dst_off + (k + 1) := by omega
        simp [hin, h1]
      · have h1 : ¬ (dst_off ≤ a ∧ a < dst_off + (k + 1)) := by omega
        simp [hin, h1]

lemma hashmap_get_mem (map : List (Nat × String)) (byte : Nat) :
    (∃ i, hashmap_get map byte = Option.some i ∧ (byte, i) ∈ map) ∨
    (hashmap_get map byte = Option.none ∧ ∀ i, (byte, i) ∉ map) := by
  induction map with
  | nil =>
    right
    simp [hashmap_get]
  | cons kv rest ih =>
    obtain ⟨k, v⟩ := kv
    by_cases hk : k = byte
    · left
      refine ⟨v, ?_, ?_⟩
      · simp [hashmap_get, hk]
      · subst hk
        exact List.mem_cons_self _ _
    · rcases ih with ⟨i, hget, hmem⟩ | ⟨hget, hnone⟩
      · left
        refine ⟨i, ?_, List.mem_cons_of_mem _ hmem⟩
        simp [hashmap_get, hk, hget]
      · right
        constructor
        · simp [hashmap_get, hk, hget]
        · intro i hi
          rcases List.mem_cons.mp hi with heq | hmem
          · exact hk (by injection heq with h1 h2; exact h1.symm)
          · exact hnone i hmem

/-- `set_parity_overflow` only touches bit 2: bits 0, 1 and 4 (mask `19`)
are preserved, and byte-ness is preserved. -/
lemma set_pv_keeps_cnh : ∀ (g : Fin 256) (w : FlagValue),
    set_parity_overflow g.val w &&& 19 = g.val &&& 19 ∧ set_parity_overflow g.val w < 256 := by
  decide

/-- `set_zero` only touches bit 6: bits 0, 1 and 4 are preserved. -/
lemma set_zero_keeps_cnh : ∀ (g : Fin 256) (w : FlagValue),
    set_zero g.val w &&& 19 = g.val &&& 19 ∧ set_zero g.val w < 256 := by
  decide

/-- `set_sign` only touches bit 7: bits 0, 1 and 4 are preserved. -/
lemma set_sign_keeps_cnh : ∀ (g : Fin 256) (w : FlagValue),
    set_sign g.val w &&& 19 = g.val &&& 19 ∧ set_sign g.val w < 256 := by
  decide

/-- After the flag updates of `Accumulator::and` (Carry cleared,
Add/Subtract cleared, Half-carry set, then any Parity/Overflow update):
bit 0 = 0, bit 1 = 0, bit 4 = 1. -/
lemma and_flag_facts : ∀ (g : Fin 256) (w : FlagValue),
    (set_parity_overflow (set_half_carry (set_add_subtract (set_carry g.val FlagValue.unset) FlagValue.unset) FlagValue.set) w &&& 1 = 0) ∧
    (set_parity_overflow (set_half_carry (set_add_subtract (set_carry g.val FlagValue.unset) FlagValue.unset) FlagValue.set) w &&& 2 = 0) ∧
    (set_parity_overflow (set_half_carry (set_add_subtract (set_carry g.val FlagValue.unset) FlagValue.unset) FlagValue.set) w &&& 16 = 16) := by
  decide

/-- Characterisation of `StackPointer::push`: final location `s - 2`, low
byte at `s - 2`, high byte at `s - 1`, everything else untouched. -/
lemma push_char (mem : Memory) (s v : Nat) (hs2 : 2 ≤ s) :
    (StackPointer.push s mem v).1 = s - 2 ∧
    ∀ a, (StackPointer.push s mem v).2.locations a =
      if a = s - 2 then v % 256
      else if a = s - 1 then v / 256 % 256
      else mem.locations a := by
  constructor
  · show s - 1 - 1 = s - 2
    omega
  · intro a
    show ((mem.write (s - 1) ((v &&& 0xFF00) >>> 8)).write (s - 1 - 1) (v &&& 0x00FF)).locations a = _
    rw [Memory.write_locations, Memory.write_locations, and_ff00_shiftRight, and_ff_eq_mod]
    have e : s - 1 - 1 = s - 2 := by omega
    rw [e]

/-- `StackPointer::pop` literally reads the low byte at the current location
and the high byte one above, returning location + 2. -/
lemma pop_char (mem : Memory) (s : Nat) :
    StackPointer.pop s mem =
      (combine_to_double_byte (mem.locations (s + 1)) (mem.locations s), s + 2) := rfl

/-- First component of `pop`: the combined value. -/
lemma pop_val (mem : Memory) (s : Nat) :
    (StackPointer.pop s mem).1 =
      combine_to_double_byte (mem.locations (s + 1)) (mem.locations s) := rfl

/-- Second component of `pop`: location advanced by 2. -/
lemma pop_loc (mem : Memory) (s : Nat) :
    (StackPointer.pop s mem).2 = s + 2 := rfl

/-- Claim C2: for every 16-bit value `v` and stack location `s` with `s - 1`
and `s - 2` in bounds, `push` stores the high byte of `v` at `s - 1` and the
low byte at `s - 2`, decrementing the location by 1 before each write
(final location `s - 2`); `pop` reads the low byte at the current location
and the high byte at location + 1, incrementing by 1 after each read
(final location + 2). -/
theorem c2_push_pop (mem : Memory) (s v : Nat)
    (hs2 : 2 ≤ s) (hs : s ≤ 0xFFFF) (hv : v < 0x10000)
    (hbytes : ∀ a, mem.locations a < 256) :
    ((StackPointer.push s mem v).2.locations (s - 1) = v / 256) ∧
    ((StackPointer.push s mem v).2.locations (s - 2) = v % 256) ∧
    ((StackPointer.push s mem v).1 = s - 2) ∧
    ((StackPointer.pop s mem).1 = 256 * mem.locations (s + 1) + mem.locations s) ∧
    ((StackPointer.pop s mem).2 = s + 2) := by
  obtain ⟨hsp, hloc⟩ := push_char mem s v hs2
  have hne : s - 1 ≠ s - 2 := by omega
  refine ⟨?_, ?_, hsp, ?_, ?_⟩
  · rw [hloc (s - 1), if_neg hne, if_pos rfl]
    omega
  · rw [hloc (s - 2), if_pos rfl]
  · rw [pop_char]
    exact combine_char _ _ (hbytes (s + 1)) (hbytes s)
  · rw [pop_char]

theorem c2_push_pop_witness :
    (2 ≤ 0x100) ∧ (0x100 ≤ 0xFFFF) ∧ (0xABEF < 0x10000) ∧
    (((StackPointer.push 0x100 ⟨fun _ => 1⟩ 0xABEF).2.locations (0x100 - 1) = 0xABEF / 256) ∧
     ((StackPointer.push 0x100 ⟨fun _ => 1⟩ 0xABEF).2.locations (0x100 - 2) = 0xABEF % 256) ∧
     ((StackPointer.push 0x100 ⟨fun _ => 1⟩ 0xABEF).1 = 0x100 - 2) ∧
     ((StackPointer.pop 0x100 ⟨fun _ => 1⟩).1 =
        256 * (Memory.locations ⟨fun _ => 1⟩ (0x100 + 1)) + Memory.locations ⟨fun _ => 1⟩ 0x100) ∧
     ((StackPointer.pop 0x100 ⟨fun _ => 1⟩).2 = 0x100 + 2)) :=
  ⟨by norm_num, by norm_num, by norm_num,
    c2_push_pop ⟨fun _ => 1⟩ 0x100 0xABEF (by norm_num) (by norm_num) (by norm_num)
      (fun a => by norm_num)⟩

/-- Claim C3: stack round-trip at any location with room for two entries —
pushing 0xABEF then popping returns 0xABEF with the stack pointer restored;
pushing 0xABEF then 0xCD89 and popping twice returns 0xCD89 then 0xABEF
(LIFO), the stack pointer returning to its original value. -/
theorem c3_stack_lifo (mem : Memory) (s : Nat) (hs4 : 4 ≤ s) (hs : s ≤ 0xFFFF) :
    (StackPointer.pop (StackPointer.push s mem 0xABEF).1 (StackPointer.push s mem 0xABEF).2).1 = 0xABEF ∧
    (StackPointer.pop (StackPointer.push s mem 0xABEF).1 (StackPointer.push s mem 0xABEF).2).2 = s ∧
    (StackPointer.pop
      (StackPointer.push (StackPointer.push s mem 0xABEF).1 (StackPointer.push s mem 0xABEF).2 0xCD89).1
      (StackPointer.push (StackPointer.push s mem 0xABEF).1 (StackPointer.push s mem 0xABEF).2 0xCD89).2).1 = 0xCD89 ∧
    (StackPointer.pop
      (StackPointer.push (StackPointer.push s mem 0xABEF).1 (StackPointer.push s mem 0xABEF).2 0xCD89).1
      (StackPointer.push (StackPointer.push s mem 0xABEF).1 (StackPointer.push s mem 0xABEF).2 0xCD89).2).2 =
      (StackPointer.push s mem 0xABEF).1 ∧
    (StackPointer.pop
      (StackPointer.pop
        (StackPointer.push (StackPointer.push s mem 0xABEF).1 (StackPointer.push s mem 0xABEF).2 0xCD89).1
        (StackPointer.push (StackPointer.push s mem 0xABEF).1 (StackPointer.push s mem 0xABEF).2 0xCD89).2).2
      (StackPointer.push (StackPointer.push s mem 0xABEF).1 (StackPointer.push s mem 0xABEF).2 0xCD89).2).1 = 0xABEF ∧
    (StackPointer.pop
      (StackPointer.pop
        (StackPointer.push (StackPointer.push s mem 0xABEF).1 (StackPointer.push s mem 0xABEF).2 0xCD89).1
        (StackPointer.push (StackPointer.push s mem 0xABEF).1 (StackPointer.push s mem 0xABEF).2 0xCD89).2).2
      (StackPointer.push (StackPointer.push s mem 0xABEF).1 (StackPointer.push s mem 0xABEF).2 0xCD89).2).2 = s := by
  obtain ⟨e1, l1⟩ := push_char mem s 0xABEF (by omega)
  obtain ⟨e2, l2⟩ := push_char (StackPointer.push s mem 0xABEF).2 (StackPointer.push s mem 0xABEF).1 0xCD89
    (by rw [e1]; omega)
  rw [e1] at e2 l2
  have ha1 : s - 2 + 1 = s - 1 := by omega
  have ha2 : s - 2 - 2 = s - 4 := by omega
  have ha3 : s - 2 - 1 = s - 3 := by omega
  have ha4 : s - 4 + 1 = s - 3 := by omega
  rw [ha2] at e2
  rw [ha2, ha3] at l2
  rw [e1]
  refine ⟨?_, ?_, ?_, ?_, ?_, ?_⟩
  · rw [pop_val, ha1, l1 (s - 1), l1 (s - 2),
      if_neg (by omega : s - 1 ≠ s - 2), if_pos rfl, if_pos rfl]
    decide
  · rw [pop_loc]
    omega
  · rw [pop_val, e2, ha4, l2 (s - 3), l2 (s - 4),
      if_neg (by omega : s - 3 ≠ s - 4), if_pos rfl, if_pos rfl]
    decide
  · rw [pop_loc, e2]
    omega
  · rw [pop_loc, e2, show s - 4 + 2 = s - 2 from by omega, pop_val, ha1,
      l2 (s - 1), l2 (s - 2),
      if_neg (by omega : s - 1 ≠ s - 4), if_neg (by omega : s - 1 ≠ s - 3),
      if_neg (by omega : s - 2 ≠ s - 4), if_neg (by omega : s - 2 ≠ s - 3),
      l1 (s - 1), l1 (s - 2),
      if_neg (by omega : s - 1 ≠ s - 2), if_pos rfl, if_pos rfl]
    decide
  · rw [pop_loc, pop_loc, e2]
    omega

theorem c3_stack_lifo_witness :
    (4 ≤ 0x100) ∧
    (StackPointer.pop (StackPointer.push 0x100 ⟨fun _ => 1⟩ 0xABEF).1
      (StackPointer.push 0x100 ⟨fun _ => 1⟩ 0xABEF).2).1 = 0xABEF ∧
    (StackPointer.pop
      (StackPointer.pop
        (StackPointer.push (StackPointer.push 0x100 ⟨fun _ => 1⟩ 0xABEF).1
          (StackPointer.push 0x100 ⟨fun _ => 1⟩ 0xABEF).2 0xCD89).1
        (StackPointer.push (StackPointer.push 0x100 ⟨fun _ => 1⟩ 0xABEF).1
          (StackPointer.push 0x100 ⟨fun _ => 1⟩ 0xABEF).2 0xCD89).2).2
      (StackPointer.push (StackPointer.push 0x100 ⟨fun _ => 1⟩ 0xABEF).1
        (StackPointer.push 0x100 ⟨fun _ => 1⟩ 0xABEF).2 0xCD89).2).2 = 0x100 := by
  have h := c3_stack_lifo ⟨fun _ => 1⟩ 0x100 (by norm_num) (by norm_num)
  exact ⟨by norm_num, h.1, h.2.2.2.2.2⟩


/-- Claim C9: `PUSH HL` (0xE5) pushes a 16-bit value whose high byte and low
byte are both register H — H appears at both `sp - 1` and `sp - 2`, every
other address is untouched, so the value of L is never written to the
stack. -/
theorem c9_push_hl (components : RuntimeComponents) (operands : Operands)
    (hs2 : 2 ≤ components.registers.sp) (hs : components.registers.sp ≤ 0xFFFF)
    (hh : components.registers.h < 256) :
    ((_0xE5_execute components operands).1.mem.locations (components.registers.sp - 1) =
      components.registers.h) ∧
    ((_0xE5_execute components operands).1.mem.locations (components.registers.sp - 2) =
      components.registers.h) ∧
    ((_0xE5_execute components operands).1.registers.sp = components.registers.sp - 2) ∧
    (∀ a, a ≠ components.registers.sp - 1 → a ≠ components.registers.sp - 2 →
      (_0xE5_execute components operands).1.mem.locations a = components.mem.locations a) := by
  have hcomb := combine_char components.registers.h components.registers.h hh hh
  obtain ⟨e, l⟩ := push_char components.mem components.registers.sp
    (combine_to_double_byte components.registers.h components.registers.h) hs2
  have hmem : (_0xE5_execute components operands).1.mem =
      (StackPointer.push components.registers.sp components.mem
        (combine_to_double_byte components.registers.h components.registers.h)).2 := rfl
  have hsp : (_0xE5_execute components operands).1.registers.sp =
      (StackPointer.push components.registers.sp components.mem
        (combine_to_double_byte components.registers.h components.registers.h)).1 := rfl
  refine ⟨?_, ?_, ?_, ?_⟩
  · rw [hmem, l _, if_neg (by omega : components.registers.sp - 1 ≠ components.registers.sp - 2),
      if_pos rfl, hcomb, Nat.mul_add_div (by norm_num), Nat.div_eq_of_lt hh, Nat.add_zero]
    exact Nat.mod_eq_of_lt hh
  · rw [hmem, l _, if_pos rfl, hcomb, Nat.mul_add_mod]
    exact Nat.mod_eq_of_lt hh
  · rw [hsp, e]
  · intro a h1 h2
    rw [hmem, l a, if_neg h2, if_neg h1]

theorem c9_push_hl_witness :
    (2 ≤ Registers.sp c9_example_state.registers) ∧
    ((_0xE5_execute c9_example_state Operands.none).1.mem.locations
        (c9_example_state.registers.sp - 1) = 0xAB) ∧
    ((_0xE5_execute c9_example_state Operands.none).1.mem.locations
        (c9_example_state.registers.sp - 2) = 0xAB) ∧
    ((_0xE5_execute c9_example_state Operands.none).1.registers.sp =
      c9_example_state.registers.sp - 2) := by
  have h := c9_push_hl c9_example_state Operands.none (by norm_num [c9_example_state, Registers.default])
    (by norm_num [c9_example_state, Registers.default]) (by norm_num [c9_example_state, Registers.default])
  exact ⟨by norm_num [c9_example_state, Registers.default], h.1, h.2.1, h.2.2.1⟩

lemma getD_replicate_of_lt (n m val d : Nat) (hm : m < n) :
    (List.replicate n val).getD m d = val := by
  rw [List.getD_eq_getElem?_getD, List.getElem?_replicate, if_pos hm]
  rfl

lemma load_os_rom_eq (mem : Memory) (bytes : List Nat) :
    load_os_rom mem bytes = copy_rom_range bytes 0 0 0x4000 mem := rfl

lemma load_expansion_rom_eq (mem : Memory) (bytes : List Nat) (src_off : Nat) :
    load_expansion_rom mem bytes src_off = copy_rom_range bytes src_off 0xC000 0x3FFF mem := rfl

lemma rom_example_16k_length : rom_example_16k.length = 0x4000 :=
  List.length_replicate _ _

lemma rom_example_32k_length : rom_example_32k.length = 0x8000 :=
  List.length_replicate _ _

/-- Claim C6 (amended): a ROM buffer of exactly 16 KiB is mapped verbatim to
addresses 0x0000..0x3FFF; a 32 KiB buffer maps its first half there and
bytes 0x4000..0x7FFE of the buffer to addresses 0xC000..0xFFFE — the final
byte of the second half is not mapped (the store has no writable address
0xFFFF, and the copy loop stops at `i < 0xFFFF`); any other length is a
fatal configuration error before any instruction executes. -/
theorem c6_rom_loading (bytes : List Nat) (mem : Memory) :
    (bytes.length = 0x4000 →
      ∃ mem2, load_rom_from_bytes mem bytes = Option.some mem2 ∧
        (∀ a, a < 0x4000 → mem2.locations a = bytes.getD a 0) ∧
        (∀ a, 0x4000 ≤ a → mem2.locations a = mem.locations a)) ∧
    (bytes.length = 0x8000 →
      ∃ mem2, load_rom_from_bytes mem bytes = Option.some mem2 ∧
        (∀ a, a < 0x4000 → mem2.locations a = bytes.getD a 0) ∧
        (∀ i, i < 0x3FFF → mem2.locations (0xC000 + i) = bytes.getD (0x4000 + i) 0) ∧
        (∀ a, 0x4000 ≤ a → a < 0xC000 → mem2.locations a = mem.locations a) ∧
        (mem2.locations 0xFFFF = mem.locations 0xFFFF)) ∧
    (bytes.length ≠ 0x4000 → bytes.length ≠ 0x8000 →
      load_rom_from_bytes mem bytes = Option.none) := by
  refine ⟨?_, ?_, ?_⟩
  · intro hlen
    refine ⟨load_os_rom mem bytes, ?_, ?_, ?_⟩
    · simp [load_rom_from_bytes, hlen]
    · intro a ha
      rw [load_os_rom_eq]
      rw [copy_rom_range_locations, if_pos (by omega : 0 ≤ a ∧ a < 0 + 0x4000)]
      simp
    · intro a ha
      rw [load_os_rom_eq]
      rw [copy_rom_range_locations, if_neg (by omega)]
  · intro hlen
    refine ⟨load_expansion_rom (load_os_rom mem bytes) bytes 0x4000, ?_, ?_, ?_, ?_, ?_⟩
    · simp [load_rom_from_bytes, hlen]
    · intro a ha
      rw [load_expansion_rom_eq, load_os_rom_eq]
      rw [copy_rom_range_locations, if_neg (by omega),
        copy_rom_range_locations, if_pos (by omega : 0 ≤ a ∧ a < 0 + 0x4000)]
      simp
    · intro i hi
      rw [load_expansion_rom_eq]
      rw [copy_rom_range_locations,
        if_pos (by omega : 0xC000 ≤ 0xC000 + i ∧ 0xC000 + i < 0xC000 + 0x3FFF),
        show 0xC000 + i - 0xC000 = i from by omega]
    · intro a h1 h2
      rw [load_expansion_rom_eq, load_os_rom_eq]
      rw [copy_rom_range_locations, if_neg (by omega),
        copy_rom_range_locations, if_neg (by omega)]
    · rw [load_expansion_rom_eq, load_os_rom_eq]
      rw [copy_rom_range_locations, if_neg (by omega),
        copy_rom_range_locations, if_neg (by omega)]
  · intro h1 h2
    simp [load_rom_from_bytes, h1, h2]

theorem c6_counterexample :
    ¬ (∀ mem2, load_rom_from_bytes zero_memory rom_example_32k = Option.some mem2 →
        ∀ i, i < 0x4000 → mem2.locations (0xC000 + i) = rom_example_32k.getD (0x4000 + i) 0) := by
  intro hcl
  have hsome : load_rom_from_bytes zero_memory rom_example_32k =
      Option.some (load_expansion_rom (load_os_rom zero_memory rom_example_32k)
        rom_example_32k 0x4000) := by
    simp [load_rom_from_bytes, rom_example_32k_length]
  have h := hcl _ hsome 0x3FFF (by norm_num)
  rw [show (0xC000 + 0x3FFF : Nat) = 0xFFFF from by norm_num] at h
  have hL : (load_expansion_rom (load_os_rom zero_memory rom_example_32k)
      rom_example_32k 0x4000).locations 0xFFFF = 0 := by
    rw [load_expansion_rom_eq, load_os_rom_eq]
    rw [copy_rom_range_locations, if_neg (by omega),
      copy_rom_range_locations, if_neg (by omega)]
    rfl
  have hR : rom_example_32k.getD (0x4000 + 0x3FFF) 0 = 7 :=
    getD_replicate_of_lt _ _ _ _ (by norm_num)
  rw [hL, hR] at h
  exact absurd h (by norm_num)

theorem c6_rom_loading_witness :
    ∃ mem2, load_rom_from_bytes zero_memory rom_example_16k = Option.some mem2 ∧
      mem2.locations 0x0000 = 7 ∧ mem2.locations 0x5000 = 0 := by
  obtain ⟨mem2, hsome, hin, hout⟩ :=
    (c6_rom_loading rom_example_16k zero_memory).1 rom_example_16k_length
  refine ⟨mem2, hsome, ?_, ?_⟩
  · rw [hin 0 (by norm_num)]
    unfold rom_example_16k
    exact getD_replicate_of_lt _ _ _ _ (by norm_num)
  · rw [hout 0x5000 (by norm_num)]
    rfl

/-- Claim C4: for every 8-bit register value (including 0xFF and 0x00),
applying `inc` then `dec` restores the original register value modulo 256
(flag side effects need not round-trip); in particular incrementing a
register holding 0xFF yields 0x00, with wrapping arithmetic that never
raises an overflow error. -/
theorem c4_inc_dec (r f : Nat) (hr : r < 256) :
    (RegisterOperations.dec (RegisterOperations.inc r f).1 (RegisterOperations.inc r f).2).1 = r ∧
    (RegisterOperations.inc 0xFF f).1 = 0 := by
  constructor
  · show ((r + 1) % 256 + 255) % 256 = r
    omega
  · show (0xFF + 1) % 256 = 0
    norm_num

/-- Witness for C4 at the concrete register value 0xFF. -/
theorem c4_inc_dec_witness :
    (RegisterOperations.dec (RegisterOperations.inc 0xFF 0).1 (RegisterOperations.inc 0xFF 0).2).1 = 0xFF ∧
    (RegisterOperations.inc 0xFF 0).1 = 0 :=
  c4_inc_dec 0xFF 0 (by norm_num)

/-- Claim C5: in each of the four dispatch namespaces, looking up a mapped
opcode byte returns that byte's catalogued instruction, and looking up an
unmapped byte is the fatal outcome (modelled as `none` — the source calls
`std::process::exit(1)` after reporting the byte and namespace). -/
theorem c5_dispatch_total (byte : Nat) :
    ((∃ i, instruction_for byte = Option.some i ∧ (byte, i) ∈ basic_instructions) ∨
      (instruction_for byte = Option.none ∧ ∀ i, (byte, i) ∉ basic_instructions)) ∧
    ((∃ i, extended_instruction_for byte = Option.some i ∧ (byte, i) ∈ extended_instructions) ∨
      (extended_instruction_for byte = Option.none ∧ ∀ i, (byte, i) ∉ extended_instructions)) ∧
    ((∃ i, index_instruction_for byte = Option.some i ∧ (byte, i) ∈ index_instructions) ∨
      (index_instruction_for byte = Option.none ∧ ∀ i, (byte, i) ∉ index_instructions)) ∧
    ((∃ i, bit_instruction_for byte = Option.some i ∧ (byte, i) ∈ bit_instructions) ∨
      (bit_instruction_for byte = Option.none ∧ ∀ i, (byte, i) ∉ bit_instructions)) :=
  ⟨hashmap_get_mem _ _, hashmap_get_mem _ _, hashmap_get_mem _ _, hashmap_get_mem _ _⟩

/-- Claim C7 (amended): `Accumulator::and` leaves Carry = 0, Add/Subtract = 0
and Half-carry = 1; `Accumulator::xor` and `Accumulator::or` leave Carry,
Add/Subtract and Half-carry (mask `19 = 0x13`) unchanged — they do not clear
them as the original claim states. -/
theorem c7_logical_flags (a value f : Nat) (hf : f < 256) :
    ((Accumulator.and a value f).2 &&& 1 = 0) ∧
    ((Accumulator.and a value f).2 &&& 2 = 0) ∧
    ((Accumulator.and a value f).2 &&& 16 = 16) ∧
    ((Accumulator.or a value f).2 &&& 19 = f &&& 19) ∧
    ((Accumulator.xor a value f).2 &&& 19 = f &&& 19) := by
  refine ⟨?_, ?_, ?_, ?_, ?_⟩
  · exact (and_flag_facts ⟨f, hf⟩ _).1
  · exact (and_flag_facts ⟨f, hf⟩ _).2.1
  · exact (and_flag_facts ⟨f, hf⟩ _).2.2
  · exact (set_pv_keeps_cnh ⟨f, hf⟩ _).1
  · simp only [Accumulator.xor]
    obtain ⟨e1, b1⟩ := set_pv_keeps_cnh ⟨f, hf⟩ (if value &&& 128 = 128 then .set else .unset)
    obtain ⟨e2, b2⟩ := set_zero_keeps_cnh ⟨_, b1⟩ (if (a ^^^ value) = 0 then .set else .unset)
    obtain ⟨e3, _⟩ := set_sign_keeps_cnh ⟨_, b2⟩ (if (a ^^^ value) &&& 128 = 128 then .set else .unset)
    rw [e3, e2, e1]

/-- Counterexample to claim C7 as stated: executing `OR` with A = 0,
operand 0, flags = 0x13 (Carry, Add/Subtract and Half-carry all set) leaves
the Carry flag set — `or` does not clear it. -/
theorem c7_counterexample : ¬ ((Accumulator.or 0 0 0x13).2 &&& 1 = 0) := by
  decide

/-- Witness for C7 at A = 0, operand 0, flags 0. -/
theorem c7_logical_flags_witness :
    (0 : Nat) < 256 ∧
    (((Accumulator.and 0 0 0).2 &&& 1 = 0) ∧
     ((Accumulator.and 0 0 0).2 &&& 2 = 0) ∧
     ((Accumulator.and 0 0 0).2 &&& 16 = 16) ∧
     ((Accumulator.or 0 0 0).2 &&& 19 = 0 &&& 19) ∧
     ((Accumulator.xor 0 0 0).2 &&& 19 = 0 &&& 19)) :=
  ⟨by norm_num, c7_logical_flags 0 0 0 (by norm_num)⟩

/-- Claim C1 (code bug), evaluated at the failing input BC = 3,
HL = 0x0010, DE = 0x0020 with bytes 1, 2, 3 at 0x10..0x12: the `LDIR`
implementation reports cycle cost `16 + 21 × 2` and drives BC to 0, but it
never increments HL or DE — they retain their starting values, address
0x0020 receives the byte at 0x0010 three times, and addresses 0x0021/0x0022
are never written (the claim, and the function's own comment, require the
three bytes copied in order and HL/DE advanced by 3). -/
theorem c1_ldir_eval :
    ((_0xEDB0_execute ldir_example_state Operands.none).2 = 16 + 21 * 2) ∧
    ((_0xEDB0_execute ldir_example_state Operands.none).1.registers.b = 0) ∧
    ((_0xEDB0_execute ldir_example_state Operands.none).1.registers.c = 0) ∧
    ((_0xEDB0_execute ldir_example_state Operands.none).1.registers.h = 0) ∧
    ((_0xEDB0_execute ldir_example_state Operands.none).1.registers.l = 0x10) ∧
    ((_0xEDB0_execute ldir_example_state Operands.none).1.registers.d = 0) ∧
    ((_0xEDB0_execute ldir_example_state Operands.none).1.registers.e = 0x20) ∧
    ((_0xEDB0_execute ldir_example_state Operands.none).1.mem.locations 0x20 = 1) ∧
    ((_0xEDB0_execute ldir_example_state Operands.none).1.mem.locations 0x21 = 0) ∧
    ((_0xEDB0_execute ldir_example_state Operands.none).1.mem.locations 0x22 = 0) := by
  decide

/-- Claim C8 (code bug), evaluated at the failing input: `JR` (0x18) with
operand 0xFE at PC = 0x0100 sets PC to 0x01FE — the operand is zero-extended,
not treated as the signed displacement −2 (which would give 0x00FE, as the
instruction's own comment requires). `DJNZ` (0x10) with the same operand and
B = 5 does sign-extend: B becomes 4 and PC becomes 0x00FE, costing 13. -/
theorem c8_jr_djnz_eval :
    ((_0x18_execute jr_example_state (Operands.one 0xFE)).1.registers.pc = 0x01FE) ∧
    ((_0x18_execute jr_example_state (Operands.one 0xFE)).2 = 12) ∧
    ((_0x10_execute djnz_example_state (Operands.one 0xFE)).1.registers.pc = 0x00FE) ∧
    ((_0x10_execute djnz_example_state (Operands.one 0xFE)).1.registers.b = 4) ∧
    ((_0x10_execute djnz_example_state (Operands.one 0xFE)).2 = 13) := by
  decide

/-- Claim C10: the data-bus port abstraction is a stub — `read` returns the
constant 0xEF for every port, `write` has no effect, `OUT (C),A` (0xED79)
and `OUT (C),C` (0xED49) leave the machine state unchanged, and
`IN A,(C)` (0xED78) loads 0xEF into A regardless of port or prior writes. -/
theorem c10_port_stub (components : RuntimeComponents) (operands : Operands) (port value : Nat) :
    DataBus.read port = 0xEF ∧
    DataBus.write port value = () ∧
    _0xED79_execute components operands = (components, 12) ∧
    _0xED49_execute components operands = (components, 12) ∧
    _0xED78_execute components operands =
      ({ components with registers := { components.registers with a := 0xEF } }, 12) :=
  ⟨rfl, rfl, rfl, rfl, rfl⟩
